import Mathlib

/-!
Verification development for the txjmp/smartsheet Go client library.

The corpus contains several near-identical revisions of the same functions.
The definitions below are a shallow embedding of the latest revision of the
code: the `SheetInfo` methods (`Load`, `MatchSheet`, `AddRow`, `UpdateRow`,
`UploadNewRows`, `GetRowLevel`, `UploadUpdateRows`, `Store`, `Restore`), the
helper `CreateLocationMap` (util.go) and the API function `SetParentId`
(smartsheet.go).  Go maps are modeled as association lists, Go `int64`/`int`
as `Int`, Go `float64` as `ℚ`, pointers to scalars as `Option`, and the HTTP
transport as an explicit environment (`Env`) recording what each outbound
call would return.  Operations that can panic (an unchecked type assertion)
return an outcome type with an explicit panic case.
-/

namespace Smartsheet

/-- Column, from apitypes.go.  Field `Type` is rendered `ctype` (keyword). -/
structure Column where
  id : Int
  index : Int
  title : String
  ctype : String
  primary : Bool
  options : List String
  deriving DecidableEq

/-- Hyperlink, from apitypes.go (all fields carry omitempty json tags). -/
structure Hyperlink where
  reportId : Int
  sheetId : Int
  url : String
  deriving DecidableEq

/-- CellLink, from apitypes.go.  Note the source tags `ColumnId` as
`reportId` on the wire; the encoder below preserves that. -/
structure CellLink where
  columnId : Int
  rowId : Int
  sheetId : Int
  status : String
  deriving DecidableEq

/-- The dynamic value held in a cell (Go `interface{}` restricted to the
kinds the library documents: string, int, float64, bool, or nil).
`float64` is modeled as a rational; no claim depends on float arithmetic. -/
inductive GoValue where
  | vnil
  | vstr (s : String)
  | vint (n : Int)
  | vfloat (q : ℚ)
  | vbool (b : Bool)
  deriving DecidableEq

/-- Cell, from apitypes.go.  `colName` carries the json tag `-` and is
never serialized. -/
structure Cell where
  colName : String
  columnId : Int
  formula : String
  hyperlink : Option Hyperlink
  linkInFromCell : Option CellLink
  linksOutToCells : List CellLink
  value : GoValue
  deriving DecidableEq

/-- Row, from apitypes.go.  `locked` is a `*bool`: `none` means "leave
unchanged", distinct from `some false`. -/
structure Row where
  id : Int
  cells : List Cell
  locked : Option Bool
  deriving DecidableEq

/-- SheetInfo aggregate, from sheetinfo.go.  The three Go maps are modeled
as association lists (key, column). -/
structure SheetInfo where
  sheetId : Int
  sheetName : String
  workspaceId : Int
  workspaceName : String
  columnsById : List (Int × Column)
  columnsByName : List (String × Column)
  columnsByIndex : List (Int × Column)
  rows : List Row
  newRows : List Row
  updateRows : List Row
  deriving DecidableEq

/-- RowLocation, from options.go. -/
structure RowLocation where
  parentId : Int
  siblingId : Int
  toTop : Bool
  toBottom : Bool
  aboveSibling : Bool
  indent : Int
  outdent : Int
  deriving DecidableEq

/-- GetSheetOptions, from options.go.  The `RowsModifiedSince` time field
only affects the query string built by `GetSheet` (external transport) and
is not modeled. -/
structure GetSheetOptions where
  rowIds : List Int
  rowsModifiedMins : Int
  columnNames : List String
  columnIds : List Int
  deriving DecidableEq

/-- Sheet, the GetSheet api response, from apitypes.go. -/
structure Sheet where
  id : Int
  name : String
  totalRowCount : Int
  workspaceId : Int
  workspaceName : String
  permalink : String
  createdAt : String
  modifiedAt : String
  columns : List Column
  rows : List Row
  deriving DecidableEq

/-- AddUpdtRowsResponse, from apitypes.go: the list-shaped batch result. -/
structure AddUpdtRowsResponse where
  message : String
  resultCode : Int
  result : List Row
  deriving DecidableEq

/-- Add1RowResponse, from apitypes.go: the single-row-object result shape
returned when exactly one row is added (named AddUpdtRowResponse at its
use site in UploadNewRows). -/
structure Add1RowResponse where
  message : String
  resultCode : Int
  result : Row
  deriving DecidableEq

/-- Go map read `m[k]` with `found` flag, for an `Int`-keyed map. -/
def lookupId (m : List (Int × Column)) (k : Int) : Option Column :=
  (m.find? (fun p => p.1 == k)).map (fun p => p.2)

/-- Go map read `m[k]` with `found` flag, for a `String`-keyed map. -/
def lookupName (m : List (String × Column)) (k : String) : Option Column :=
  (m.find? (fun p => p.1 == k)).map (fun p => p.2)

/-- Go map write `m[k] = v` for an `Int`-keyed map: replace or append. -/
def insertId (m : List (Int × Column)) (k : Int) (v : Column) :
    List (Int × Column) :=
  if (m.find? (fun p => p.1 == k)).isSome then
    m.map (fun p => if p.1 == k then (k, v) else p)
  else m ++ [(k, v)]

/-- Go map write `m[k] = v` for a `String`-keyed map: replace or append. -/
def insertName (m : List (String × Column)) (k : String) (v : Column) :
    List (String × Column) :=
  if (m.find? (fun p => p.1 == k)).isSome then
    m.map (fun p => if p.1 == k then (k, v) else p)
  else m ++ [(k, v)]

/-- The keys of an association list are distinct (always true of a Go map). -/
def KeysNodup {κ α : Type} (m : List (κ × α)) : Prop :=
  (m.map Prod.fst).Nodup

/-- Errors produced by the library (source: `errors.New` calls and the
errors surfaced from the transport and json decoding). -/
inductive GoErr where
  | invalidColumnName (colName : String)
  | invalidRowLevelField
  | requestFailed
  | decodeFailed
  | sheetIdEmpty
  deriving DecidableEq

/-- The column-comparison loop of MatchSheet (sheetinfo.go): for every
column of the base, a column with the same id must exist in the sheet with
identical title and type; the first mismatch returns false. -/
def matchColumns (she : SheetInfo) : List (Int × Column) → Bool
  | [] => true
  | (cid, baseCol) :: rest =>
    match lookupId she.columnsById cid with
    | none => false
    | some c =>
      if c.title ≠ baseCol.title then false
      else if c.ctype ≠ baseCol.ctype then false
      else matchColumns she rest

/-- SheetInfo.MatchSheet (sheetinfo.go): compares sheet id, sheet name,
column count, then every base column; rows are not consulted. -/
def SheetInfo.MatchSheet (she base : SheetInfo) : Bool :=
  if she.sheetId ≠ base.sheetId then false
  else if she.sheetName ≠ base.sheetName then false
  else if she.columnsById.length ≠ base.columnsById.length then false
  else matchColumns she base.columnsById

/-- The cell-resolution loop shared by AddRow and UpdateRow: each cell's
column title is resolved to a column id via ColumnsByName; an unknown
title aborts with an error before anything is enqueued. -/
def resolveCells (she : SheetInfo) : List Cell → Except GoErr (List Cell)
  | [] => Except.ok []
  | c :: rest =>
    match lookupName she.columnsByName c.colName with
    | none => Except.error (GoErr.invalidColumnName c.colName)
    | some col =>
      match resolveCells she rest with
      | Except.error e => Except.error e
      | Except.ok cs => Except.ok ({ c with columnId := col.id } :: cs)

/-- SheetInfo.AddRow (latest revision): resolve every cell's column title,
then append the resolved row to NewRows; on an unknown title return the
error and leave the aggregate untouched. -/
def SheetInfo.AddRow (she : SheetInfo) (newRow : Row) :
    Option GoErr × SheetInfo :=
  match resolveCells she newRow.cells with
  | Except.error e => (some e, she)
  | Except.ok cs =>
    (none, { she with newRows := she.newRows ++ [{ newRow with cells := cs }] })

/-- SheetInfo.UpdateRow (latest revision): same resolution, appending to
UpdateRows. -/
def SheetInfo.UpdateRow (she : SheetInfo) (updtRow : Row) :
    Option GoErr × SheetInfo :=
  match resolveCells she updtRow.cells with
  | Except.error e => (some e, she)
  | Except.ok cs =>
    (none, { she with updateRows := she.updateRows ++ [{ updtRow with cells := cs }] })

/-- The ColumnNames-to-ColumnIds resolution at the top of SheetInfo.Load:
returns the first column name that is not in ColumnsByName, if any. -/
def firstUnknownName (she : SheetInfo) : List String → Option String
  | [] => none
  | n :: rest =>
    match lookupName she.columnsByName n with
    | none => some n
    | some _ => firstUnknownName she rest

/-- Rebuild of the by-id index in SheetInfo.Load's column loop. -/
def buildById (columns : List Column) : List (Int × Column) :=
  columns.foldl (fun m c => insertId m c.id c) []

/-- Rebuild of the by-title index in SheetInfo.Load's column loop. -/
def buildByName (columns : List Column) : List (String × Column) :=
  columns.foldl (fun m c => insertName m c.title c) []

/-- Rebuild of the by-position index in SheetInfo.Load's column loop. -/
def buildByIndex (columns : List Column) : List (Int × Column) :=
  columns.foldl (fun m c => insertId m c.index c) []

/-- Wire values put into a request item (`map[string]interface{}`). -/
inductive ItemVal where
  | vbool (b : Bool)
  | vint (n : Int)
  | vstr (s : String)
  | vcells (cs : List Cell)
  deriving DecidableEq

/-- A request item: one entry of the batch body built by the uploads. -/
abbrev ReqItem := List (String × ItemVal)

/-- One item of the SetParentId request body. -/
structure SetParentItem where
  id : Int
  parentId : Int
  toBottom : Option Bool
  deriving DecidableEq

/-- The outbound API calls the embedded operations can issue. -/
inductive ApiCall where
  | insertRows (sheetId : Int) (body : List ReqItem)
  | updateRows (sheetId : Int) (body : List ReqItem)
  | setParent (sheetId : Int) (body : List SetParentItem)
  deriving DecidableEq

/-- A raw response body, abstracted as the outcomes of decoding it with
either json shape (`json.Unmarshal` into the single-row or the list type). -/
structure RespBody where
  asSingle : Option Add1RowResponse
  asList : Option AddUpdtRowsResponse

/-- The transport environment: what each outbound call would return.
`none` bodies mean DoRequest failed; `setParentOk n` is the success of the
n-th SetParentId request issued. -/
structure Env where
  getSheetResult : Option Sheet
  insertBody : Option RespBody
  updateBody : Option RespBody
  setParentOk : Nat → Bool

/-- SheetInfo.Load (latest revision): resolve requested column names,
call GetSheet, and on success replace identity, the three column indices
and the loaded rows; the pending queues are not touched.  On a resolution
or transport failure the aggregate is returned unchanged with the error. -/
def SheetInfo.Load (she : SheetInfo) (options : Option GetSheetOptions)
    (env : Env) : Option GoErr × SheetInfo :=
  let colNames := match options with
    | none => []
    | some o => o.columnNames
  match firstUnknownName she colNames with
  | some n => (some (GoErr.invalidColumnName n), she)
  | none =>
    match env.getSheetResult with
    | none => (some GoErr.requestFailed, she)
    | some sheet =>
      (none,
        { sheetId := sheet.id
          sheetName := sheet.name
          workspaceId := sheet.workspaceId
          workspaceName := sheet.workspaceName
          columnsById := buildById sheet.columns
          columnsByName := buildByName sheet.columns
          columnsByIndex := buildByIndex sheet.columns
          rows := sheet.rows
          newRows := she.newRows
          updateRows := she.updateRows })

/-- CreateLocationMap (util.go): only active fields produce entries.  A Go
map has no entry order; the source's field order is used here. -/
def CreateLocationMap (location : RowLocation) : List (String × ItemVal) :=
  (if location.toTop then [("toTop", ItemVal.vbool true)] else []) ++
  (if location.toBottom then [("toBottom", ItemVal.vbool true)] else []) ++
  (if location.parentId ≠ 0 then [("parentId", ItemVal.vint location.parentId)] else []) ++
  (if location.siblingId ≠ 0 then [("siblingId", ItemVal.vint location.siblingId)] else []) ++
  (if location.aboveSibling then [("above", ItemVal.vbool true)] else []) ++
  (if location.indent ≠ 0 then [("indent", ItemVal.vint 1)] else []) ++
  (if location.outdent ≠ 0 then [("outdent", ItemVal.vint 1)] else [])

/-- The location map used by UploadNewRows: bottom-of-sheet when no
location is given. -/
def insertLocMap (location : Option RowLocation) : List (String × ItemVal) :=
  match location with
  | none => [("toBottom", ItemVal.vbool true)]
  | some loc => CreateLocationMap loc

/-- The location map used by UploadUpdateRows: empty (nil map) when no
location is given. -/
def updateLocMap (location : Option RowLocation) : List (String × ItemVal) :=
  match location with
  | none => []
  | some loc => CreateLocationMap loc

/-- The insert-batch body built by UploadNewRows: cells, the lock flag if
set, and the shared location fields merged into every item. -/
def insertReqData (she : SheetInfo) (location : Option RowLocation) :
    List ReqItem :=
  she.newRows.map (fun r =>
    [("cells", ItemVal.vcells r.cells)] ++
    (match r.locked with
     | some b => [("locked", ItemVal.vbool b)]
     | none => []) ++
    insertLocMap location)

/-- The update-batch body built by UploadUpdateRows: the row id as a
decimal string (provider quirk), cells only if non-empty, the lock flag if
set, and the shared location fields merged into every item. -/
def updateReqData (she : SheetInfo) (location : Option RowLocation) :
    List ReqItem :=
  she.updateRows.map (fun r =>
    [("id", ItemVal.vstr (toString r.id))] ++
    (if r.cells.isEmpty then [] else [("cells", ItemVal.vcells r.cells)]) ++
    (match r.locked with
     | some b => [("locked", ItemVal.vbool b)]
     | none => []) ++
    updateLocMap location)

/-- SetParentId (smartsheet.go, latest revision): refuse when the sheet id
is unset, no-op when no child ids, otherwise issue one PUT whose body has
one item per child; `toBottom` is only set for a single child.  Returns
the error, the issued calls, and the updated transport-call counter. -/
def SetParentId (she : SheetInfo) (parentId : Int) (childIds : List Int)
    (toBottom : Option Bool) (env : Env) (n : Nat) :
    Option GoErr × List ApiCall × Nat :=
  if she.sheetId = 0 then (some GoErr.sheetIdEmpty, [], n)
  else if childIds.isEmpty then (none, [], n)
  else
    let body0 := childIds.map (fun cid =>
      ({ id := cid, parentId := parentId, toBottom := none } : SetParentItem))
    let body := if toBottom = some true ∧ childIds.length = 1 then
        body0.map (fun item => { item with toBottom := some true })
      else body0
    let call := ApiCall.setParent she.sheetId body
    if env.setParentOk n then (none, [call], n + 1)
    else (some GoErr.requestFailed, [call], n + 1)

/-- Outcome of GetRowLevel: the unchecked `cell.Value.(string)` type
assertion panics on a non-string value. -/
inductive LevelResult where
  | panicked
  | ret (level : String) (err : Option GoErr)
  deriving DecidableEq

/-- The cell scan inside GetRowLevel: the first cell whose column id
matches decides; no matching cell yields the empty string. -/
def levelFromCells (cid : Int) : List Cell → LevelResult
  | [] => LevelResult.ret "" none
  | c :: rest =>
    if c.columnId = cid then
      match c.value with
      | GoValue.vstr s => LevelResult.ret s none
      | _ => LevelResult.panicked
    else levelFromCells cid rest

/-- SheetInfo.GetRowLevel (latest revision): error when the level column
name is unknown; otherwise scan the row's cells. -/
def SheetInfo.GetRowLevel (she : SheetInfo) (row : Row) (rowLevelField : String) :
    LevelResult :=
  match lookupName she.columnsByName rowLevelField with
  | none => LevelResult.ret "" (some GoErr.invalidRowLevelField)
  | some col => levelFromCells col.id row.cells

/-- Result of the parent-linking walk: the final error value, the
set-parent calls issued (in order), and the transport-call counter. -/
inductive WalkResult where
  | panicked (calls : List ApiCall) (n : Nat)
  | ret (err : Option GoErr) (calls : List ApiCall) (n : Nat)
  deriving DecidableEq

/-- The parent-linking pass of UploadNewRows (latest revision): walk the
created rows in order; a "0" marker flushes the accumulated children of
the previous parent (a flush failure breaks the loop) and starts a new
group; a "1" marker appends to the group only when a parent id has been
established; after the walk the last group is flushed. -/
def parentLinkWalk (she : SheetInfo) (fld : String) (env : Env) :
    List Row → Int → List Int → Nat → WalkResult
  | [], parentId, childIds, n =>
    if childIds.isEmpty then WalkResult.ret none [] n
    else
      match SetParentId she parentId childIds none env n with
      | (e, cs, n2) => WalkResult.ret e cs n2
  | row :: rest, parentId, childIds, n =>
    match she.GetRowLevel row fld with
    | LevelResult.panicked => WalkResult.panicked [] n
    | LevelResult.ret _ (some e) => WalkResult.ret (some e) [] n
    | LevelResult.ret lvl none =>
      if lvl = "0" then
        if childIds.isEmpty then
          parentLinkWalk she fld env rest row.id [] n
        else
          match SetParentId she parentId childIds none env n with
          | (none, cs, n2) =>
            match parentLinkWalk she fld env rest row.id [] n2 with
            | WalkResult.panicked cs2 n3 => WalkResult.panicked (cs ++ cs2) n3
            | WalkResult.ret e cs2 n3 => WalkResult.ret e (cs ++ cs2) n3
          | (some e, cs, n2) => WalkResult.ret (some e) cs n2
      else if parentId ≠ 0 ∧ lvl = "1" then
        parentLinkWalk she fld env rest parentId (childIds ++ [row.id]) n
      else
        parentLinkWalk she fld env rest parentId childIds n

/-- Result of an upload operation: the Go return values, the aggregate
after the call, and the calls issued.  `goPanic` records a panic escaping
the operation; the deferred queue clearing still applies to the state. -/
inductive UploadResult where
  | goPanic (she : SheetInfo) (calls : List ApiCall)
  | ret (resp : Option AddUpdtRowsResponse) (err : Option GoErr)
      (she : SheetInfo) (calls : List ApiCall)

/-- The aggregate state after an upload operation completes or panics. -/
def UploadResult.state : UploadResult → SheetInfo
  | UploadResult.goPanic she _ => she
  | UploadResult.ret _ _ she _ => she

/-- The calls issued by an upload operation, in order. -/
def UploadResult.calls : UploadResult → List ApiCall
  | UploadResult.goPanic _ cs => cs
  | UploadResult.ret _ _ _ cs => cs

/-- SheetInfo.UploadNewRows (latest revision): no-op on an empty queue;
build the batch with the shared location (bottom-of-sheet by default);
one POST; on transport failure return the error with the queue intact;
a single queued row decodes the single-row response shape and is
normalized into a one-element list; multiple rows decode the list shape
(decode failure keeps the queue); on decode success the queue is cleared
(a deferred assignment) and, when a level field is given, the
parent-linking pass runs. -/
def SheetInfo.UploadNewRows (she : SheetInfo) (location : Option RowLocation)
    (rowLevelField : Option String) (env : Env) : UploadResult :=
  if she.newRows.isEmpty then UploadResult.ret none none she []
  else
    let call := ApiCall.insertRows she.sheetId (insertReqData she location)
    match env.insertBody with
    | none => UploadResult.ret none (some GoErr.requestFailed) she [call]
    | some body =>
      if she.newRows.length = 1 then
        match body.asSingle with
        | none => UploadResult.ret none (some GoErr.decodeFailed) she [call]
        | some r1 =>
          UploadResult.ret
            (some { message := r1.message, resultCode := r1.resultCode,
                    result := [r1.result] })
            none { she with newRows := [] } [call]
      else
        match body.asList with
        | none => UploadResult.ret none (some GoErr.decodeFailed) she [call]
        | some apiResp =>
          match rowLevelField with
          | none =>
            UploadResult.ret (some apiResp) none { she with newRows := [] } [call]
          | some fld =>
            match parentLinkWalk she fld env apiResp.result 0 [] 0 with
            | WalkResult.panicked cs _ =>
              UploadResult.goPanic { she with newRows := [] } (call :: cs)
            | WalkResult.ret e cs _ =>
              UploadResult.ret (some apiResp) e { she with newRows := [] }
                (call :: cs)

/-- SheetInfo.UploadUpdateRows (latest revision): one PUT with the batch;
the response is always decoded with the list shape; the queue is cleared
only after a successful decode; no location fields are merged when no
location is given. -/
def SheetInfo.UploadUpdateRows (she : SheetInfo) (location : Option RowLocation)
    (env : Env) : UploadResult :=
  let call := ApiCall.updateRows she.sheetId (updateReqData she location)
  match env.updateBody with
  | none => UploadResult.ret none (some GoErr.requestFailed) she [call]
  | some body =>
    match body.asList with
    | none => UploadResult.ret none (some GoErr.decodeFailed) she [call]
    | some apiResp =>
      UploadResult.ret (some apiResp) none { she with updateRows := [] } [call]

/-- A JSON document, as produced by Go's encoding/json.  Integer-typed Go
fields marshal to integer numerals (`jint`), float64 values to general
numerals (`jnum`); `jmap` stands for an object whose keys are decimal
numerals (a marshaled `map[int64]` or `map[int]`). -/
inductive Json where
  | null
  | jbool (b : Bool)
  | jint (n : Int)
  | jnum (q : ℚ)
  | jstr (s : String)
  | jarr (items : List Json)
  | jobj (fields : List (String × Json))
  | jmap (entries : List (Int × Json))

/-- Look a field up in a marshaled object. -/
def fieldGet (fs : List (String × Json)) (k : String) : Option Json :=
  (fs.find? (fun p => p.1 == k)).map (fun p => p.2)

/-- Decode an int64 field (Go leaves the zero value when missing). -/
def getInt (fs : List (String × Json)) (k : String) : Int :=
  match fieldGet fs k with
  | some (Json.jint n) => n
  | _ => 0

/-- Decode a string field. -/
def getStr (fs : List (String × Json)) (k : String) : String :=
  match fieldGet fs k with
  | some (Json.jstr s) => s
  | _ => ""

/-- Decode a bool field. -/
def getBool (fs : List (String × Json)) (k : String) : Bool :=
  match fieldGet fs k with
  | some (Json.jbool b) => b
  | _ => false

/-- Decode a []string field. -/
def getStrList (fs : List (String × Json)) (k : String) : List String :=
  match fieldGet fs k with
  | some (Json.jarr items) =>
    items.map (fun j => match j with | Json.jstr s => s | _ => "")
  | _ => []

/-- Marshal a dynamic cell value (never called on vnil: omitempty drops
a nil interface before this point). -/
def encodeGoValue : GoValue → Json
  | GoValue.vnil => Json.null
  | GoValue.vstr s => Json.jstr s
  | GoValue.vint n => Json.jint n
  | GoValue.vfloat q => Json.jnum q
  | GoValue.vbool b => Json.jbool b

/-- Unmarshal a dynamic cell value into `interface{}`: every JSON numeral
becomes a float64, the Go behavior. -/
def decodeGoValue : Json → GoValue
  | Json.jstr s => GoValue.vstr s
  | Json.jint n => GoValue.vfloat n
  | Json.jnum q => GoValue.vfloat q
  | Json.jbool b => GoValue.vbool b
  | _ => GoValue.vnil

/-- Marshal a Hyperlink (every field omitempty). -/
def encodeHyperlink (h : Hyperlink) : Json :=
  Json.jobj (
    (if h.reportId ≠ 0 then [("reportId", Json.jint h.reportId)] else []) ++
    (if h.sheetId ≠ 0 then [("sheetId", Json.jint h.sheetId)] else []) ++
    (if h.url ≠ "" then [("url", Json.jstr h.url)] else []))

/-- Unmarshal a Hyperlink. -/
def decodeHyperlink (j : Json) : Hyperlink :=
  match j with
  | Json.jobj fs =>
    { reportId := getInt fs "reportId", sheetId := getInt fs "sheetId",
      url := getStr fs "url" }
  | _ => { reportId := 0, sheetId := 0, url := "" }

/-- Marshal a CellLink (source tags ColumnId as "reportId" on the wire). -/
def encodeCellLink (l : CellLink) : Json :=
  Json.jobj [("reportId", Json.jint l.columnId), ("rowId", Json.jint l.rowId),
    ("sheetId", Json.jint l.sheetId), ("status", Json.jstr l.status)]

/-- Unmarshal a CellLink. -/
def decodeCellLink (j : Json) : CellLink :=
  match j with
  | Json.jobj fs =>
    { columnId := getInt fs "reportId", rowId := getInt fs "rowId",
      sheetId := getInt fs "sheetId", status := getStr fs "status" }
  | _ => { columnId := 0, rowId := 0, sheetId := 0, status := "" }

/-- Marshal a Cell: `ColName` carries the tag `-` and is dropped; the
optional fields are omitted when empty. -/
def encodeCell (c : Cell) : Json :=
  Json.jobj (
    [("columnId", Json.jint c.columnId)] ++
    (if c.formula ≠ "" then [("formula", Json.jstr c.formula)] else []) ++
    (match c.hyperlink with
     | some h => [("hyperlink", encodeHyperlink h)]
     | none => []) ++
    (match c.linkInFromCell with
     | some l => [("linkInFromCell", encodeCellLink l)]
     | none => []) ++
    (if c.linksOutToCells.isEmpty then []
     else [("linksOutToCells", Json.jarr (c.linksOutToCells.map encodeCellLink))]) ++
    (match c.value with
     | GoValue.vnil => []
     | v => [("value", encodeGoValue v)]))

/-- Unmarshal a Cell: `ColName` is restored as its zero value. -/
def decodeCell (j : Json) : Cell :=
  match j with
  | Json.jobj fs =>
    { colName := ""
      columnId := getInt fs "columnId"
      formula := getStr fs "formula"
      hyperlink := (fieldGet fs "hyperlink").map decodeHyperlink
      linkInFromCell := (fieldGet fs "linkInFromCell").map decodeCellLink
      linksOutToCells :=
        match fieldGet fs "linksOutToCells" with
        | some (Json.jarr items) => items.map decodeCellLink
        | _ => []
      value :=
        match fieldGet fs "value" with
        | some v => decodeGoValue v
        | none => GoValue.vnil }
  | _ =>
    { colName := "", columnId := 0, formula := "", hyperlink := none,
      linkInFromCell := none, linksOutToCells := [], value := GoValue.vnil }

/-- Marshal a Row (`locked` has no omitempty: nil marshals as null). -/
def encodeRow (r : Row) : Json :=
  Json.jobj [("id", Json.jint r.id),
    ("cells", Json.jarr (r.cells.map encodeCell)),
    ("locked", match r.locked with
     | some b => Json.jbool b
     | none => Json.null)]

/-- Unmarshal a Row. -/
def decodeRow (j : Json) : Row :=
  match j with
  | Json.jobj fs =>
    { id := getInt fs "id"
      cells :=
        match fieldGet fs "cells" with
        | some (Json.jarr items) => items.map decodeCell
        | _ => []
      locked :=
        match fieldGet fs "locked" with
        | some (Json.jbool b) => some b
        | _ => none }
  | _ => { id := 0, cells := [], locked := none }

/-- Marshal a Column (no omitempty on its fields). -/
def encodeColumn (c : Column) : Json :=
  Json.jobj [("id", Json.jint c.id), ("index", Json.jint c.index),
    ("title", Json.jstr c.title), ("type", Json.jstr c.ctype),
    ("primary", Json.jbool c.primary),
    ("options", Json.jarr (c.options.map Json.jstr))]

/-- Unmarshal a Column. -/
def decodeColumn (j : Json) : Column :=
  match j with
  | Json.jobj fs =>
    { id := getInt fs "id", index := getInt fs "index",
      title := getStr fs "title", ctype := getStr fs "type",
      primary := getBool fs "primary", options := getStrList fs "options" }
  | _ =>
    { id := 0, index := 0, title := "", ctype := "", primary := false,
      options := [] }

/-- SheetInfo.Store, modeled as the json document `json.MarshalIndent`
writes to the file (the file itself is an identity channel).  SheetInfo
has no json tags, so the Go field names are the keys. -/
def SheetInfo.Store (she : SheetInfo) : Json :=
  Json.jobj [
    ("SheetId", Json.jint she.sheetId),
    ("SheetName", Json.jstr she.sheetName),
    ("WorkspaceId", Json.jint she.workspaceId),
    ("WorkspaceName", Json.jstr she.workspaceName),
    ("ColumnsById", Json.jmap (she.columnsById.map (fun p => (p.1, encodeColumn p.2)))),
    ("ColumnsByName", Json.jobj (she.columnsByName.map (fun p => (p.1, encodeColumn p.2)))),
    ("ColumnsByIndex", Json.jmap (she.columnsByIndex.map (fun p => (p.1, encodeColumn p.2)))),
    ("Rows", Json.jarr (she.rows.map encodeRow)),
    ("NewRows", Json.jarr (she.newRows.map encodeRow)),
    ("UpdateRows", Json.jarr (she.updateRows.map encodeRow))]

/-- SheetInfo.Restore, modeled as `json.Unmarshal` of a stored document. -/
def SheetInfo.Restore (j : Json) : SheetInfo :=
  match j with
  | Json.jobj fs =>
    { sheetId := getInt fs "SheetId"
      sheetName := getStr fs "SheetName"
      workspaceId := getInt fs "WorkspaceId"
      workspaceName := getStr fs "WorkspaceName"
      columnsById :=
        match fieldGet fs "ColumnsById" with
        | some (Json.jmap entries) => entries.map (fun p => (p.1, decodeColumn p.2))
        | _ => []
      columnsByName :=
        match fieldGet fs "ColumnsByName" with
        | some (Json.jobj entries) => entries.map (fun p => (p.1, decodeColumn p.2))
        | _ => []
      columnsByIndex :=
        match fieldGet fs "ColumnsByIndex" with
        | some (Json.jmap entries) => entries.map (fun p => (p.1, decodeColumn p.2))
        | _ => []
      rows :=
        match fieldGet fs "Rows" with
        | some (Json.jarr items) => items.map decodeRow
        | _ => []
      newRows :=
        match fieldGet fs "NewRows" with
        | some (Json.jarr items) => items.map decodeRow
        | _ => []
      updateRows :=
        match fieldGet fs "UpdateRows" with
        | some (Json.jarr items) => items.map decodeRow
        | _ => [] }
  | _ =>
    { sheetId := 0, sheetName := "", workspaceId := 0, workspaceName := "",
      columnsById := [], columnsByName := [], columnsByIndex := [],
      rows := [], newRows := [], updateRows := [] }

/-- What the json round trip does to a dynamic value: an integer-typed
value is restored as a float64; everything else is unchanged. -/
def valueRT : GoValue → GoValue
  | GoValue.vint n => GoValue.vfloat n
  | v => v

/-- What the json round trip does to a cell: ColName (tagged `-`) is reset
to empty and the value goes through `valueRT`. -/
def cellRT (c : Cell) : Cell :=
  { c with colName := "", value := valueRT c.value }

/-- What the json round trip does to a row. -/
def rowRT (r : Row) : Row :=
  { r with cells := r.cells.map cellRT }

/-! ### Sample data used by witnesses -/

/-- A sample column for concrete witnesses. -/
def sampleCol (i : Int) (name : String) : Column :=
  { id := i, index := i, title := name, ctype := "TEXT_NUMBER",
    primary := false, options := [] }

/-- A sample cell for concrete witnesses. -/
def sampleCell (name : String) (cid : Int) (v : GoValue) : Cell :=
  { colName := name, columnId := cid, formula := "", hyperlink := none,
    linkInFromCell := none, linksOutToCells := [], value := v }

/-- A sample loaded aggregate with two columns, Level and Address. -/
def sampleShe : SheetInfo :=
  { sheetId := 7, sheetName := "S", workspaceId := 1, workspaceName := "W",
    columnsById := [(10, sampleCol 10 "Level"), (11, sampleCol 11 "Address")],
    columnsByName := [("Level", sampleCol 10 "Level"), ("Address", sampleCol 11 "Address")],
    columnsByIndex := [(0, sampleCol 10 "Level"), (1, sampleCol 11 "Address")],
    rows := [], newRows := [], updateRows := [] }

/-- A sample row holding only a Level marker cell. -/
def sampleLevelRow (rid : Int) (lvl : String) : Row :=
  { id := rid, cells := [sampleCell "" 10 (GoValue.vstr lvl)], locked := none }

/-- The sample aggregate with five queued new rows. -/
def sampleShe5 : SheetInfo :=
  { sampleShe with newRows := [sampleLevelRow 0 "0", sampleLevelRow 0 "1",
      sampleLevelRow 0 "1", sampleLevelRow 0 "0", sampleLevelRow 0 "1"] }

/-- An environment in which every transport call fails. -/
def sampleEnvFail : Env :=
  { getSheetResult := none, insertBody := none, updateBody := none,
    setParentOk := fun _ => true }

/-- The five created rows the provider returns for the 0,1,1,0,1 pattern. -/
def samplePatternResult : List Row :=
  [sampleLevelRow 101 "0", sampleLevelRow 102 "1", sampleLevelRow 103 "1",
   sampleLevelRow 104 "0", sampleLevelRow 105 "1"]

/-- An environment whose insert call succeeds with the 0,1,1,0,1 rows. -/
def sampleEnvPattern : Env :=
  { getSheetResult := none,
    insertBody := some
      { asSingle := none,
        asList := some
          { message := "SUCCESS", resultCode := 0, result := samplePatternResult } },
    updateBody := none, setParentOk := fun _ => true }

/-! ### C7: Load leaves the aggregate unchanged on transport failure -/

/-- C7: for every aggregate and every Load whose GetSheet request fails,
the aggregate (identity, the three column indices, loaded rows, and both
pending queues) is returned exactly as it was, together with an error. -/
theorem C7_load_transport_failure (she : SheetInfo)
    (options : Option GetSheetOptions) (env : Env)
    (hfail : env.getSheetResult = none) :
    (she.Load options env).2 = she ∧ (she.Load options env).1.isSome := by
  unfold SheetInfo.Load
  cases h : firstUnknownName she
      (match options with | none => [] | some o => o.columnNames) with
  | none => simp [h, hfail]
  | some n => simp [h]

/-- Witness for C7 at a concrete aggregate and failing environment. -/
theorem C7_witness :
    (sampleShe.Load none sampleEnvFail).2 = sampleShe ∧
      (sampleShe.Load none sampleEnvFail).1.isSome :=
  C7_load_transport_failure sampleShe none sampleEnvFail rfl

/-! ### C8: MatchSheet is a pure comparison with an iff characterization -/

/-- In an association list with distinct keys, `find?` on a member's key
returns that member. -/
theorem find_key_of_mem {m : List (Int × Column)} (hnd : KeysNodup m)
    {p : Int × Column} (hp : p ∈ m) :
    m.find? (fun q => q.1 == p.1) = some p := by
  induction m with
  | nil => cases hp
  | cons q rest ih =>
    have hnd' : KeysNodup rest := (List.nodup_cons.mp hnd).2
    rcases List.mem_cons.mp hp with heq | hmem
    · subst heq
      simp [List.find?]
    · have hne : q.1 ≠ p.1 := by
        intro hcontra
        exact (List.nodup_cons.mp hnd).1 (hcontra ▸ List.mem_map_of_mem Prod.fst hmem)
      have : (q.1 == p.1) = false := beq_eq_false_iff_ne.mpr hne
      simp [List.find?, this, ih hnd' hmem]

/-- `matchColumns` only reads the by-id index of the candidate. -/
theorem matchColumns_congr {she1 she2 : SheetInfo}
    (h : she1.columnsById = she2.columnsById) (l : List (Int × Column)) :
    matchColumns she1 l = matchColumns she2 l := by
  induction l with
  | nil => rfl
  | cons q rest ih =>
    simp only [matchColumns, lookupId, h, ih]

/-- `matchColumns` holds iff every base column is found in the sheet with
identical title and type. -/
theorem matchColumns_iff (she : SheetInfo) (l : List (Int × Column)) :
    matchColumns she l = true ↔
      ∀ p ∈ l, ∃ c, lookupId she.columnsById p.1 = some c ∧
        c.title = p.2.title ∧ c.ctype = p.2.ctype := by
  induction l with
  | nil => simp [matchColumns]
  | cons q rest ih =>
    cases hq : lookupId she.columnsById q.1 with
    | none =>
      simp only [matchColumns, hq]
      constructor
      · intro hfalse; cases hfalse
      · intro hall
        rcases hall q (List.mem_cons_self q rest) with ⟨c, hc, _⟩
        rw [hq] at hc; cases hc
    | some c =>
      simp only [matchColumns, hq]
      by_cases ht : c.title = q.2.title
      · by_cases hty : c.ctype = q.2.ctype
        · simp only [ht, hty, ne_eq, not_true_eq_false, if_false, ih]
          constructor
          · intro hall p hp
            rcases List.mem_cons.mp hp with heq | hmem
            · subst heq; exact ⟨c, hq, ht, hty⟩
            · exact hall p hmem
          · intro hall p hp
            exact hall p (List.mem_cons_of_mem q hp)
        · simp only [ht, hty, ne_eq, not_true_eq_false, if_false,
            not_false_eq_true, if_true]
          constructor
          · intro hfalse; cases hfalse
          · intro hall
            rcases hall q (List.mem_cons_self q rest) with ⟨c', hc', _, hty'⟩
            rw [hq] at hc'; cases hc'
            exact absurd hty' hty
      · simp only [ht, ne_eq, not_false_eq_true, if_true]
        constructor
        · intro hfalse; cases hfalse
        · intro hall
          rcases hall q (List.mem_cons_self q rest) with ⟨c', hc', ht', _⟩
          rw [hq] at hc'; cases hc'
          exact absurd ht' ht

/-- C8: MatchSheet is reflexive on any aggregate whose by-id index has
distinct keys (always true of a Go map); it returns true iff the two
aggregates agree on sheet id, sheet name, column count, and every base
column is present in the candidate with identical title and type; and the
row lists (loaded and queued) never affect the result. -/
theorem C8_matchSheet_spec :
    (∀ x : SheetInfo, KeysNodup x.columnsById → x.MatchSheet x = true) ∧
    (∀ she base : SheetInfo,
      she.MatchSheet base = true ↔
        she.sheetId = base.sheetId ∧ she.sheetName = base.sheetName ∧
        she.columnsById.length = base.columnsById.length ∧
        ∀ p ∈ base.columnsById, ∃ c, lookupId she.columnsById p.1 = some c ∧
          c.title = p.2.title ∧ c.ctype = p.2.ctype) ∧
    (∀ she base : SheetInfo, ∀ r1 n1 u1 r2 n2 u2,
      SheetInfo.MatchSheet
        { she with rows := r1, newRows := n1, updateRows := u1 }
        { base with rows := r2, newRows := n2, updateRows := u2 } =
      she.MatchSheet base) := by
  have hiff : ∀ she base : SheetInfo,
      she.MatchSheet base = true ↔
        she.sheetId = base.sheetId ∧ she.sheetName = base.sheetName ∧
        she.columnsById.length = base.columnsById.length ∧
        ∀ p ∈ base.columnsById, ∃ c, lookupId she.columnsById p.1 = some c ∧
          c.title = p.2.title ∧ c.ctype = p.2.ctype := by
    intro she base
    unfold SheetInfo.MatchSheet
    by_cases h1 : she.sheetId = base.sheetId
    · by_cases h2 : she.sheetName = base.sheetName
      · by_cases h3 : she.columnsById.length = base.columnsById.length
        · simp [h1, h2, h3, matchColumns_iff]
        · simp [h1, h2, h3]
      · simp [h1, h2]
    · simp [h1]
  refine ⟨?_, hiff, ?_⟩
  · intro x hnd
    refine (hiff x x).mpr ⟨rfl, rfl, rfl, ?_⟩
    intro p hp
    refine ⟨p.2, ?_, rfl, rfl⟩
    unfold lookupId
    rw [find_key_of_mem hnd hp]
    rfl
  · intro she base r1 n1 u1 r2 n2 u2
    unfold SheetInfo.MatchSheet
    rw [matchColumns_congr
      (show ({ she with rows := r1, newRows := n1, updateRows := u1 } :
          SheetInfo).columnsById = she.columnsById from rfl)]

/-- Witness for C8 at a concrete aggregate. -/
theorem C8_witness : sampleShe.MatchSheet sampleShe = true :=
  C8_matchSheet_spec.1 sampleShe (by unfold KeysNodup; decide)

/-! ### C5: enqueue resolves every title or leaves the queue untouched -/

/-- When some cell's title is unknown, resolution fails. -/
theorem resolveCells_error (she : SheetInfo) (cells : List Cell)
    (h : ∃ c ∈ cells, lookupName she.columnsByName c.colName = none) :
    ∃ e, resolveCells she cells = Except.error e := by
  induction cells with
  | nil => rcases h with ⟨c, hc, _⟩; cases hc
  | cons c rest ih =>
    cases hl : lookupName she.columnsByName c.colName with
    | none => exact ⟨GoErr.invalidColumnName c.colName, by simp [resolveCells, hl]⟩
    | some col =>
      rcases h with ⟨c', hc', hl'⟩
      rcases List.mem_cons.mp hc' with heq | hmem
      · subst heq; rw [hl] at hl'; cases hl'
      · rcases ih ⟨c', hmem, hl'⟩ with ⟨e, he⟩
        refine ⟨e, ?_⟩
        simp [resolveCells, hl, he]

/-- When every cell's title resolves, resolution succeeds and each output
cell is the input cell with its column id replaced by the looked-up id. -/
theorem resolveCells_ok (she : SheetInfo) (cells : List Cell)
    (h : ∀ c ∈ cells, (lookupName she.columnsByName c.colName).isSome) :
    ∃ cs, resolveCells she cells = Except.ok cs ∧
      List.Forall₂ (fun c rc => ∃ col,
        lookupName she.columnsByName c.colName = some col ∧
        rc = { c with columnId := col.id }) cells cs := by
  induction cells with
  | nil => exact ⟨[], rfl, List.Forall₂.nil⟩
  | cons c rest ih =>
    cases hl : lookupName she.columnsByName c.colName with
    | none =>
      have := h c (List.mem_cons_self c rest)
      rw [hl] at this; cases this
    | some col =>
      rcases ih (fun c' hc' => h c' (List.mem_cons_of_mem c hc')) with ⟨cs, hcs, hfa⟩
      refine ⟨{ c with columnId := col.id } :: cs, ?_, ?_⟩
      · simp [resolveCells, hl, hcs]
      · exact List.Forall₂.cons ⟨col, hl, rfl⟩ hfa

/-- C5: for both enqueue operations, an unknown column title in any cell
returns an error and leaves the aggregate (hence the queue length)
unchanged; when every title resolves, exactly one row is appended to the
corresponding queue, and its cells are the submitted cells with each
column id resolved through the Column Directory. -/
theorem C5_enqueue_resolution (she : SheetInfo) (row : Row) :
    ((∃ c ∈ row.cells, lookupName she.columnsByName c.colName = none) →
      (she.AddRow row).1.isSome ∧ (she.AddRow row).2 = she ∧
      (she.UpdateRow row).1.isSome ∧ (she.UpdateRow row).2 = she) ∧
    ((∀ c ∈ row.cells, (lookupName she.columnsByName c.colName).isSome) →
      ∃ cs, resolveCells she row.cells = Except.ok cs ∧
        List.Forall₂ (fun c rc => ∃ col,
          lookupName she.columnsByName c.colName = some col ∧
          rc = { c with columnId := col.id }) row.cells cs ∧
        (she.AddRow row).1 = none ∧
        (she.AddRow row).2.newRows = she.newRows ++ [{ row with cells := cs }] ∧
        (she.AddRow row).2.newRows.length = she.newRows.length + 1 ∧
        (she.UpdateRow row).1 = none ∧
        (she.UpdateRow row).2.updateRows = she.updateRows ++ [{ row with cells := cs }] ∧
        (she.UpdateRow row).2.updateRows.length = she.updateRows.length + 1) := by
  constructor
  · intro h
    rcases resolveCells_error she row.cells h with ⟨e, he⟩
    unfold SheetInfo.AddRow SheetInfo.UpdateRow
    rw [he]
    exact ⟨rfl, rfl, rfl, rfl⟩
  · intro h
    rcases resolveCells_ok she row.cells h with ⟨cs, hcs, hfa⟩
    refine ⟨cs, hcs, hfa, ?_⟩
    unfold SheetInfo.AddRow SheetInfo.UpdateRow
    rw [hcs]
    simp

/-- Witness for C5: the success branch at a concrete aggregate and row. -/
theorem C5_witness :
    ∃ cs, resolveCells sampleShe
        [sampleCell "Address" 0 (GoValue.vstr "x")] = Except.ok cs ∧
      (sampleShe.AddRow
        { id := 0, cells := [sampleCell "Address" 0 (GoValue.vstr "x")],
          locked := none }).2.newRows.length = sampleShe.newRows.length + 1 := by
  rcases (C5_enqueue_resolution sampleShe
      { id := 0, cells := [sampleCell "Address" 0 (GoValue.vstr "x")],
        locked := none }).2 (by decide) with ⟨cs, hcs, _, _, _, hlen, _⟩
  exact ⟨cs, hcs, hlen⟩

/-! ### C10: GetRowLevel's unchecked string assertion -/

/-- The cell scan panics exactly when the first matching cell's value is
not a string. -/
theorem levelFromCells_panic (cid : Int) (cells : List Cell) (c : Cell)
    (hfind : cells.find? (fun cc => cc.columnId == cid) = some c)
    (hval : ∀ s, c.value ≠ GoValue.vstr s) :
    levelFromCells cid cells = LevelResult.panicked := by
  induction cells with
  | nil => cases hfind
  | cons c0 rest ih =>
    by_cases hc0 : c0.columnId = cid
    · have hbeq : (c0.columnId == cid) = true := beq_iff_eq.mpr hc0
      simp only [List.find?, hbeq] at hfind
      have hc := Option.some.inj hfind
      subst hc
      cases hv : c0.value with
      | vstr s => exact absurd hv (hval s)
      | vnil => simp [levelFromCells, hc0, hv]
      | vint n => simp [levelFromCells, hc0, hv]
      | vfloat q => simp [levelFromCells, hc0, hv]
      | vbool b => simp [levelFromCells, hc0, hv]
    · have hbeq : (c0.columnId == cid) = false := beq_eq_false_iff_ne.mpr hc0
      simp only [List.find?, hbeq] at hfind
      simp [levelFromCells, hc0, ih hfind]

/-- The cell scan returns the string value of the first matching cell. -/
theorem levelFromCells_str (cid : Int) (cells : List Cell) (c : Cell) (s : String)
    (hfind : cells.find? (fun cc => cc.columnId == cid) = some c)
    (hval : c.value = GoValue.vstr s) :
    levelFromCells cid cells = LevelResult.ret s none := by
  induction cells with
  | nil => cases hfind
  | cons c0 rest ih =>
    by_cases hc0 : c0.columnId = cid
    · have hbeq : (c0.columnId == cid) = true := beq_iff_eq.mpr hc0
      simp only [List.find?, hbeq] at hfind
      have hc := Option.some.inj hfind
      subst hc
      simp [levelFromCells, hc0, hval]
    · have hbeq : (c0.columnId == cid) = false := beq_eq_false_iff_ne.mpr hc0
      simp only [List.find?, hbeq] at hfind
      simp [levelFromCells, hc0, ih hfind]

/-- The cell scan yields the empty string when no cell matches. -/
theorem levelFromCells_missing (cid : Int) (cells : List Cell)
    (hfind : cells.find? (fun cc => cc.columnId == cid) = none) :
    levelFromCells cid cells = LevelResult.ret "" none := by
  induction cells with
  | nil => rfl
  | cons c0 rest ih =>
    by_cases hc0 : c0.columnId = cid
    · have hbeq : (c0.columnId == cid) = true := beq_iff_eq.mpr hc0
      simp only [List.find?, hbeq] at hfind
      cases hfind
    · have hbeq : (c0.columnId == cid) = false := beq_eq_false_iff_ne.mpr hc0
      simp only [List.find?, hbeq] at hfind
      simp [levelFromCells, hc0, ih hfind]

/-- C10: with the level column resolved, GetRowLevel returns the string
value of the first cell in the level column; it panics (an unchecked type
assertion) whenever that cell holds a non-string value; a row with no
level cell yields the empty string, and the parent-linking walk treats
such a row as neither parent nor child (the walk skips it unchanged). -/
theorem C10_getRowLevel_assertion (she : SheetInfo) (fld : String)
    (col : Column) (hcol : lookupName she.columnsByName fld = some col) :
    (∀ row : Row, ∀ c ∈ (row.cells.find? (fun cc => cc.columnId == col.id)),
      (∀ s, c.value ≠ GoValue.vstr s) →
        she.GetRowLevel row fld = LevelResult.panicked) ∧
    (∀ row : Row, ∀ c ∈ (row.cells.find? (fun cc => cc.columnId == col.id)),
      ∀ s, c.value = GoValue.vstr s →
        she.GetRowLevel row fld = LevelResult.ret s none) ∧
    (∀ row : Row, row.cells.find? (fun cc => cc.columnId == col.id) = none →
        she.GetRowLevel row fld = LevelResult.ret "" none) ∧
    (∀ row : Row, ∀ rest parentId childIds n env,
      she.GetRowLevel row fld = LevelResult.ret "" none →
        parentLinkWalk she fld env (row :: rest) parentId childIds n =
        parentLinkWalk she fld env rest parentId childIds n) := by
  refine ⟨?_, ?_, ?_, ?_⟩
  · intro row c hc hval
    unfold SheetInfo.GetRowLevel
    rw [hcol]
    exact levelFromCells_panic col.id row.cells c hc hval
  · intro row c hc s hval
    unfold SheetInfo.GetRowLevel
    rw [hcol]
    exact levelFromCells_str col.id row.cells c s hc hval
  · intro row hfind
    unfold SheetInfo.GetRowLevel
    rw [hcol]
    exact levelFromCells_missing col.id row.cells hfind
  · intro row rest parentId childIds n env hlvl
    simp [parentLinkWalk, hlvl]

/-- Witness for C10: a numeric level cell panics; a missing level cell
yields the empty string. -/
theorem C10_witness :
    sampleShe.GetRowLevel
      { id := 1, cells := [sampleCell "" 10 (GoValue.vint 3)], locked := none }
      "Level" = LevelResult.panicked ∧
    sampleShe.GetRowLevel { id := 1, cells := [], locked := none }
      "Level" = LevelResult.ret "" none := by
  constructor
  · exact (C10_getRowLevel_assertion sampleShe "Level" (sampleCol 10 "Level")
      (by decide)).1
      { id := 1, cells := [sampleCell "" 10 (GoValue.vint 3)], locked := none }
      (sampleCell "" 10 (GoValue.vint 3)) (by decide) (by intro s h; cases h)
  · exact (C10_getRowLevel_assertion sampleShe "Level" (sampleCol 10 "Level")
      (by decide)).2.2.1
      { id := 1, cells := [], locked := none } (by decide)

/-! ### C4: child markers before any parent marker are dropped -/

/-- A leading child-marked row is skipped by the walk when no parent has
been established. -/
theorem parentLinkWalk_skip_orphans (she : SheetInfo) (fld : String) (env : Env)
    (pre : List Row)
    (hpre : ∀ r ∈ pre, she.GetRowLevel r fld = LevelResult.ret "1" none)
    (rest : List Row) (n : Nat) :
    parentLinkWalk she fld env (pre ++ rest) 0 [] n =
      parentLinkWalk she fld env rest 0 [] n := by
  induction pre with
  | nil => rfl
  | cons r pre' ih =>
    have hr := hpre r (List.mem_cons_self r pre')
    have htail : ∀ r' ∈ pre', she.GetRowLevel r' fld = LevelResult.ret "1" none :=
      fun r' hr' => hpre r' (List.mem_cons_of_mem r hr')
    rw [List.cons_append]
    rw [show parentLinkWalk she fld env (r :: (pre' ++ rest)) 0 [] n =
        parentLinkWalk she fld env (pre' ++ rest) 0 [] n from by
      simp [parentLinkWalk, hr]]
    exact ih htail

/-- C4: in the parent-linking pass, created rows carrying a child marker
with no preceding parent marker are skipped outright: the walk over the
prefixed list equals the walk over the remainder, and a list consisting
only of such orphan children produces no set-parent call at all. -/
theorem C4_orphan_children_dropped (she : SheetInfo) (fld : String) (env : Env)
    (pre rest : List Row) (n : Nat)
    (hpre : ∀ r ∈ pre, she.GetRowLevel r fld = LevelResult.ret "1" none) :
    parentLinkWalk she fld env (pre ++ rest) 0 [] n =
      parentLinkWalk she fld env rest 0 [] n ∧
    parentLinkWalk she fld env pre 0 [] n = WalkResult.ret none [] n := by
  constructor
  · exact parentLinkWalk_skip_orphans she fld env pre hpre rest n
  · have h0 := parentLinkWalk_skip_orphans she fld env pre hpre [] n
    rw [List.append_nil] at h0
    rw [h0]
    rfl

/-- Witness for C4 at the concrete orphan pattern 1,1 followed by 0,1. -/
theorem C4_witness :
    parentLinkWalk sampleShe "Level" sampleEnvPattern
        ([sampleLevelRow 201 "1", sampleLevelRow 202 "1"] ++
          [sampleLevelRow 204 "0", sampleLevelRow 205 "1"]) 0 [] 0 =
      parentLinkWalk sampleShe "Level" sampleEnvPattern
        [sampleLevelRow 204 "0", sampleLevelRow 205 "1"] 0 [] 0 ∧
    parentLinkWalk sampleShe "Level" sampleEnvPattern
        [sampleLevelRow 201 "1", sampleLevelRow 202 "1"] 0 [] 0 =
      WalkResult.ret none [] 0 :=
  C4_orphan_children_dropped sampleShe "Level" sampleEnvPattern
    [sampleLevelRow 201 "1", sampleLevelRow 202 "1"]
    [sampleLevelRow 204 "0", sampleLevelRow 205 "1"] 0 (by decide)

/-! ### C1: the 0,1,1,0,1 marker pattern issues exactly two set-parent calls -/

/-- C1: a successful five-row insert whose created rows carry markers
0,1,1,0,1 issues, after the single insert call, exactly two set-parent
calls in order: first the two children of the first parent, then the one
child of the second parent. -/
theorem C1_pattern_two_setparent_calls
    (she : SheetInfo) (loc : Option RowLocation) (fld : String) (env : Env)
    (body : RespBody) (resp : AddUpdtRowsResponse) (r1 r2 r3 r4 r5 : Row)
    (hqueue : she.newRows.length = 5)
    (hsid : she.sheetId ≠ 0)
    (hins : env.insertBody = some body)
    (hlist : body.asList = some resp)
    (hres : resp.result = [r1, r2, r3, r4, r5])
    (h1 : she.GetRowLevel r1 fld = LevelResult.ret "0" none)
    (h2 : she.GetRowLevel r2 fld = LevelResult.ret "1" none)
    (h3 : she.GetRowLevel r3 fld = LevelResult.ret "1" none)
    (h4 : she.GetRowLevel r4 fld = LevelResult.ret "0" none)
    (h5 : she.GetRowLevel r5 fld = LevelResult.ret "1" none)
    (hr1 : r1.id ≠ 0) (hr4 : r4.id ≠ 0)
    (hsp0 : env.setParentOk 0 = true) (hsp1 : env.setParentOk 1 = true) :
    she.UploadNewRows loc (some fld) env =
      UploadResult.ret (some resp) none { she with newRows := [] }
        [ApiCall.insertRows she.sheetId (insertReqData she loc),
         ApiCall.setParent she.sheetId
           [{ id := r2.id, parentId := r1.id, toBottom := none },
            { id := r3.id, parentId := r1.id, toBottom := none }],
         ApiCall.setParent she.sheetId
           [{ id := r5.id, parentId := r4.id, toBottom := none }]] := by
  have hne : she.newRows.isEmpty = false := by
    cases hq : she.newRows with
    | nil => rw [hq] at hqueue; cases hqueue
    | cons a l => rfl
  have hlen1 : (she.newRows.length = 1) = False := by simp [hqueue]
  unfold SheetInfo.UploadNewRows
  rw [hne, hins]
  simp only [Bool.false_eq_true, if_false, hlen1, hlist, hres]
  simp [parentLinkWalk, SetParentId, h1, h2, h3, h4, h5, hsid, hr1, hr4,
    hsp0, hsp1]

/-- The concrete five-row queue for the C1 witness. -/
theorem C1_witness :
    sampleShe5.UploadNewRows none (some "Level") sampleEnvPattern =
      UploadResult.ret
        (some { message := "SUCCESS", resultCode := 0,
                result := samplePatternResult })
        none { sampleShe5 with newRows := [] }
        [ApiCall.insertRows 7 (insertReqData sampleShe5 none),
         ApiCall.setParent 7
           [{ id := 102, parentId := 101, toBottom := none },
            { id := 103, parentId := 101, toBottom := none }],
         ApiCall.setParent 7
           [{ id := 105, parentId := 104, toBottom := none }]] :=
  C1_pattern_two_setparent_calls sampleShe5 none "Level" sampleEnvPattern
    { asSingle := none,
      asList := some
        { message := "SUCCESS", resultCode := 0,
          result := samplePatternResult } }
    { message := "SUCCESS", resultCode := 0, result := samplePatternResult }
    (sampleLevelRow 101 "0") (sampleLevelRow 102 "1") (sampleLevelRow 103 "1")
    (sampleLevelRow 104 "0") (sampleLevelRow 105 "1")
    (by decide) (by decide) rfl rfl (by decide)
    (by decide) (by decide) (by decide) (by decide) (by decide)
    (by decide) (by decide) rfl rfl

/-! ### C3: response-shape normalization -/

/-- C3: a single queued row is decoded with the single-row response shape
and normalized into a one-element list result; more than one queued row is
decoded with the list shape and the result is used as-is, preserving the
provider's (submission) order. -/
theorem C3_response_normalization
    (she : SheetInfo) (loc : Option RowLocation) (env : Env) (body : RespBody) :
    (∀ fld r1, she.newRows.length = 1 → env.insertBody = some body →
      body.asSingle = some r1 →
      she.UploadNewRows loc fld env =
        UploadResult.ret
          (some { message := r1.message, resultCode := r1.resultCode,
                  result := [r1.result] })
          none { she with newRows := [] }
          [ApiCall.insertRows she.sheetId (insertReqData she loc)]) ∧
    (∀ resp, 2 ≤ she.newRows.length → env.insertBody = some body →
      body.asList = some resp →
      she.UploadNewRows loc none env =
        UploadResult.ret (some resp) none { she with newRows := [] }
          [ApiCall.insertRows she.sheetId (insertReqData she loc)]) := by
  constructor
  · intro fld r1 hlen hins hsingle
    have hne : she.newRows.isEmpty = false := by
      cases hq : she.newRows with
      | nil => rw [hq] at hlen; cases hlen
      | cons a l => rfl
    unfold SheetInfo.UploadNewRows
    rw [hne, hins]
    simp [hlen, hsingle]
  · intro resp hlen hins hlist
    have hne : she.newRows.isEmpty = false := by
      cases hq : she.newRows with
      | nil => rw [hq] at hlen; cases hlen
      | cons a l => rfl
    have hlen1 : (she.newRows.length = 1) = False := by
      simp only [eq_iff_iff, iff_false]
      intro h
      rw [h] at hlen
      exact absurd hlen (by norm_num)
    unfold SheetInfo.UploadNewRows
    rw [hne, hins]
    simp [hlen1, hlist]

/-- The one-row queue for the C3 witness. -/
def sampleShe1 : SheetInfo := { sampleShe with newRows := [sampleLevelRow 0 "0"] }

/-- An environment answering the insert with the single-row shape. -/
def sampleEnvSingle : Env :=
  { getSheetResult := none,
    insertBody := some
      { asSingle := some
          { message := "SUCCESS", resultCode := 0,
            result := sampleLevelRow 301 "0" },
        asList := none },
    updateBody := none, setParentOk := fun _ => true }

/-- Witness for C3: the single-row path at a concrete queue. -/
theorem C3_witness :
    sampleShe1.UploadNewRows none none sampleEnvSingle =
      UploadResult.ret
        (some { message := "SUCCESS", resultCode := 0,
                result := [sampleLevelRow 301 "0"] })
        none { sampleShe1 with newRows := [] }
        [ApiCall.insertRows 7 (insertReqData sampleShe1 none)] :=
  (C3_response_normalization sampleShe1 none sampleEnvSingle
      { asSingle := some
          { message := "SUCCESS", resultCode := 0,
            result := sampleLevelRow 301 "0" },
        asList := none }).1
    none { message := "SUCCESS", resultCode := 0, result := sampleLevelRow 301 "0" }
    (by decide) rfl rfl

/-! ### C6: asymmetric default placement between insert and update -/

/-- The placement field names of the wire shape. -/
def placementKeys : List String :=
  ["toTop", "toBottom", "parentId", "siblingId", "above", "indent", "outdent"]

/-- C6: with a nil placement directive, every insert-batch item carries
toBottom = true; the insert call issued is built from exactly that body;
update-batch items carry no placement field at all, and the update call is
issued with that body. -/
theorem C6_default_placement_asymmetry (she : SheetInfo) (env : Env) :
    (∀ item ∈ insertReqData she none, ("toBottom", ItemVal.vbool true) ∈ item) ∧
    (∀ fld, she.newRows ≠ [] →
      (she.UploadNewRows none fld env).calls.head? =
        some (ApiCall.insertRows she.sheetId (insertReqData she none))) ∧
    (∀ item ∈ updateReqData she none, ∀ p ∈ item, p.1 ∉ placementKeys) ∧
    ((she.UploadUpdateRows none env).calls =
      [ApiCall.updateRows she.sheetId (updateReqData she none)]) := by
  refine ⟨?_, ?_, ?_, ?_⟩
  · intro item hitem
    rcases List.mem_map.mp hitem with ⟨r, _, hr⟩
    subst hr
    cases r.locked with
    | none => simp [insertLocMap]
    | some b => simp [insertLocMap]
  · intro fld hne
    have hne' : she.newRows.isEmpty = false := by
      cases hq : she.newRows with
      | nil => exact absurd hq hne
      | cons a l => rfl
    unfold SheetInfo.UploadNewRows
    rw [hne']
    cases env.insertBody with
    | none => rfl
    | some body =>
      dsimp only
      by_cases hlen : she.newRows.length = 1
      · rw [if_pos hlen]
        cases body.asSingle with
        | none => rfl
        | some r1 => rfl
      · rw [if_neg hlen]
        cases body.asList with
        | none => rfl
        | some resp =>
          dsimp only
          cases fld with
          | none => rfl
          | some f =>
            dsimp only
            cases hw : parentLinkWalk she f env resp.result 0 [] 0 with
            | panicked cs n => rfl
            | ret e cs n => rfl
  · intro item hitem p hp
    rcases List.mem_map.mp hitem with ⟨r, _, hr⟩
    subst hr
    rcases List.mem_append.mp hp with hp1 | hp2
    · rcases List.mem_append.mp hp1 with hp3 | hp4
      · rcases List.mem_append.mp hp3 with hp5 | hp6
        · simp only [List.mem_singleton] at hp5
          subst hp5
          simp [placementKeys]
        · by_cases hc : r.cells.isEmpty
          · rw [if_pos hc] at hp6; cases hp6
          · rw [if_neg hc] at hp6
            simp only [List.mem_singleton] at hp6
            subst hp6
            simp [placementKeys]
      · cases hl : r.locked with
        | none => rw [hl] at hp4; cases hp4
        | some b =>
          rw [hl] at hp4
          simp only [List.mem_singleton] at hp4
          subst hp4
          simp [placementKeys]
    · simp only [updateLocMap] at hp2
      cases hp2
  · unfold SheetInfo.UploadUpdateRows
    cases env.updateBody with
    | none => rfl
    | some body =>
      dsimp only
      cases body.asList with
      | none => rfl
      | some resp => rfl

/-- The concrete one-row update queue for the C6 witness. -/
def sampleSheU : SheetInfo :=
  { sampleShe with updateRows :=
      [{ id := 44, cells := [sampleCell "" 11 (GoValue.vstr "x")],
         locked := some true }] }

/-- Witness for C6 at concrete queues: inserts get toBottom, updates get
nothing. -/
theorem C6_witness :
    (∀ item ∈ insertReqData sampleShe5 none,
      ("toBottom", ItemVal.vbool true) ∈ item) ∧
    (∀ item ∈ updateReqData sampleSheU none, ∀ p ∈ item, p.1 ∉ placementKeys) := by
  constructor
  · exact (C6_default_placement_asymmetry sampleShe5 sampleEnvFail).1
  · exact (C6_default_placement_asymmetry sampleSheU sampleEnvFail).2.2.1

/-! ### C2 (corrected): queue clearing is conditional on decode success -/

/-- Counterexample to C2 as stated: with five queued rows and a failing
transport, UploadNewRows returns with the new-row queue still holding all
five rows — the clearing is not unconditional. -/
theorem C2_counterexample :
    (sampleShe5.UploadNewRows none none sampleEnvFail).state.newRows.length = 5 := by
  decide

/-- C2 (amended): the pending queues are cleared exactly on the
decode-success paths.  On transport failure or response-decode failure
both upload operations return the aggregate unchanged, queue included; on
decode success the corresponding queue is empty after the call (for a
multi-row insert even when a later set-parent call fails or panics). -/
theorem C2_amended_queue_clearing (she : SheetInfo) (loc : Option RowLocation)
    (fld : Option String) (env : Env) :
    (env.insertBody = none → (she.UploadNewRows loc fld env).state = she) ∧
    (∀ body, env.insertBody = some body → she.newRows.length = 1 →
      body.asSingle = none → (she.UploadNewRows loc fld env).state = she) ∧
    (∀ body, env.insertBody = some body → she.newRows.length ≠ 1 →
      body.asList = none → (she.UploadNewRows loc fld env).state = she) ∧
    (∀ body, env.insertBody = some body →
      ((she.newRows.length = 1 ∧ body.asSingle.isSome) ∨
        (she.newRows.length ≠ 1 ∧ body.asList.isSome)) →
      (she.UploadNewRows loc fld env).state.newRows = []) ∧
    (env.updateBody = none → (she.UploadUpdateRows loc env).state = she) ∧
    (∀ body, env.updateBody = some body → body.asList = none →
      (she.UploadUpdateRows loc env).state = she) ∧
    (∀ body, env.updateBody = some body → body.asList.isSome →
      (she.UploadUpdateRows loc env).state.updateRows = []) := by
  refine ⟨?_, ?_, ?_, ?_, ?_, ?_, ?_⟩
  · intro hnone
    unfold SheetInfo.UploadNewRows
    rw [hnone]
    cases hq : she.newRows.isEmpty with
    | true => rfl
    | false => rfl
  · intro body hsome hlen hs
    unfold SheetInfo.UploadNewRows
    rw [hsome]
    cases hq : she.newRows.isEmpty with
    | true => rfl
    | false =>
      simp only [Bool.false_eq_true, if_false]
      rw [if_pos hlen, hs]
      rfl
  · intro body hsome hlen hl
    unfold SheetInfo.UploadNewRows
    rw [hsome]
    cases hq : she.newRows.isEmpty with
    | true => rfl
    | false =>
      simp only [Bool.false_eq_true, if_false]
      rw [if_neg hlen, hl]
      rfl
  · intro body hsome hcase
    unfold SheetInfo.UploadNewRows
    rw [hsome]
    cases hq : she.newRows.isEmpty with
    | true =>
      dsimp only [UploadResult.state]
      exact List.isEmpty_iff.mp hq
    | false =>
      simp only [Bool.false_eq_true, if_false]
      rcases hcase with ⟨hlen, hs⟩ | ⟨hlen, hl⟩
      · rcases Option.isSome_iff_exists.mp hs with ⟨r1, hr1⟩
        rw [if_pos hlen, hr1]
        rfl
      · rcases Option.isSome_iff_exists.mp hl with ⟨resp, hresp⟩
        rw [if_neg hlen, hresp]
        dsimp only
        cases fld with
        | none => rfl
        | some f =>
          dsimp only
          cases hw : parentLinkWalk she f env resp.result 0 [] 0 with
          | panicked cs n => rfl
          | ret e cs n => rfl
  · intro hnone
    unfold SheetInfo.UploadUpdateRows
    rw [hnone]
    rfl
  · intro body hsome hl
    unfold SheetInfo.UploadUpdateRows
    rw [hsome]
    dsimp only
    rw [hl]
    rfl
  · intro body hsome hl
    rcases Option.isSome_iff_exists.mp hl with ⟨resp, hresp⟩
    unfold SheetInfo.UploadUpdateRows
    rw [hsome]
    dsimp only
    rw [hresp]
    rfl

/-- Witness for the amended C2: transport failure keeps the queue, decode
success clears it, at concrete inputs. -/
theorem C2_amended_witness :
    (sampleShe5.UploadNewRows none none sampleEnvFail).state = sampleShe5 ∧
    (sampleShe5.UploadNewRows none none sampleEnvPattern).state.newRows = [] := by
  constructor
  · exact (C2_amended_queue_clearing sampleShe5 none none sampleEnvFail).1 rfl
  · exact (C2_amended_queue_clearing sampleShe5 none none sampleEnvPattern).2.2.2.1
      { asSingle := none,
        asList := some
          { message := "SUCCESS", resultCode := 0,
            result := samplePatternResult } }
      rfl (Or.inr ⟨by decide, rfl⟩)

/-! ### C9 (corrected): the Store/Restore round trip -/

/-- A CellLink survives the round trip exactly. -/
theorem decodeCellLink_encodeCellLink (l : CellLink) :
    decodeCellLink (encodeCellLink l) = l := rfl

/-- A CellLink list survives the round trip exactly. -/
theorem cellLinkList_roundTrip (ls : List CellLink) :
    (ls.map encodeCellLink).map decodeCellLink = ls := by
  induction ls with
  | nil => rfl
  | cons l rest ih => simp [ih, decodeCellLink_encodeCellLink]

/-- A Hyperlink survives the round trip exactly (omitted zero fields are
restored as zero values). -/
theorem decodeHyperlink_encodeHyperlink (h : Hyperlink) :
    decodeHyperlink (encodeHyperlink h) = h := by
  rcases h with ⟨rid, sid, url⟩
  by_cases h1 : rid = 0 <;> by_cases h2 : sid = 0 <;> by_cases h3 : url = "" <;>
    simp [encodeHyperlink, decodeHyperlink, getInt, getStr, fieldGet,
      List.find?, h1, h2, h3]

/-- Composed form of the CellLink list round trip. -/
theorem cellLinkList_roundTrip_comp (ls : List CellLink) :
    List.map (decodeCellLink ∘ encodeCellLink) ls = ls := by
  induction ls with
  | nil => rfl
  | cons l rest ih => simp [ih, decodeCellLink_encodeCellLink, Function.comp]

/-- A Cell comes back from the round trip as `cellRT`: ColName erased and
an integer value turned into a float. -/
theorem decodeCell_encodeCell (c : Cell) : decodeCell (encodeCell c) = cellRT c := by
  rcases c with ⟨nm, cid, f, hl, li, lo, v⟩
  by_cases hf : f = "" <;>
    rcases hl with _ | hlv <;>
    rcases li with _ | liv <;>
    rcases lo with _ | ⟨lo0, lorest⟩ <;>
    rcases v with _ | s | n | q | b <;>
      simp [encodeCell, decodeCell, cellRT, valueRT, encodeGoValue, decodeGoValue,
        getInt, getStr, fieldGet, List.find?, hf,
        decodeHyperlink_encodeHyperlink, decodeCellLink_encodeCellLink,
        cellLinkList_roundTrip, cellLinkList_roundTrip_comp]

/-- A Row comes back from the round trip as `rowRT`. -/
theorem decodeRow_encodeRow (r : Row) : decodeRow (encodeRow r) = rowRT r := by
  rcases r with ⟨rid, cells, locked⟩
  have hcells : (cells.map encodeCell).map decodeCell = cells.map cellRT := by
    induction cells with
    | nil => rfl
    | cons c rest ih => simp [ih, decodeCell_encodeCell]
  rcases locked with _ | b <;>
    simp [encodeRow, decodeRow, rowRT, getInt, fieldGet, List.find?, hcells]

/-- A row list comes back from the round trip mapped through `rowRT`. -/
theorem rowList_roundTrip (rs : List Row) :
    (rs.map encodeRow).map decodeRow = rs.map rowRT := by
  induction rs with
  | nil => rfl
  | cons r rest ih => simp [ih, decodeRow_encodeRow]

/-- A Column survives the round trip exactly. -/
theorem decodeColumn_encodeColumn (c : Column) :
    decodeColumn (encodeColumn c) = c := by
  rcases c with ⟨id, index, title, ctype, primary, options⟩
  have hopts : (options.map Json.jstr).map
      (fun j => match j with | Json.jstr s => s | _ => "") = options := by
    induction options with
    | nil => rfl
    | cons o rest ih => simpa using ih
  simp only [encodeColumn, decodeColumn, getInt, getStr, getBool, getStrList,
    fieldGet, List.find?, Column.mk.injEq]
  exact ⟨rfl, rfl, rfl, rfl, rfl, hopts⟩

/-- An Int-keyed column map survives the round trip exactly. -/
theorem intColMap_roundTrip (m : List (Int × Column)) :
    (m.map (fun p => (p.1, encodeColumn p.2))).map
      (fun p => (p.1, decodeColumn p.2)) = m := by
  induction m with
  | nil => rfl
  | cons p rest ih => simp [ih, decodeColumn_encodeColumn]

/-- A String-keyed column map survives the round trip exactly. -/
theorem strColMap_roundTrip (m : List (String × Column)) :
    (m.map (fun p => (p.1, encodeColumn p.2))).map
      (fun p => (p.1, decodeColumn p.2)) = m := by
  induction m with
  | nil => rfl
  | cons p rest ih => simp [ih, decodeColumn_encodeColumn]

/-- An aggregate whose loaded row carries a cell with a non-empty ColName,
used to refute the exact round trip. -/
def sampleStoreShe : SheetInfo :=
  { sampleShe with rows :=
      [{ id := 1, cells := [sampleCell "Address" 11 (GoValue.vstr "x")],
         locked := some true }] }

/-- Counterexample to C9 as stated: Cell.ColName carries the json tag `-`,
so storing an aggregate whose loaded row has a cell with ColName set and
restoring it does not reproduce the aggregate exactly (ColName comes back
empty). -/
theorem C9_counterexample :
    SheetInfo.Restore (SheetInfo.Store sampleStoreShe) ≠ sampleStoreShe := by
  decide

/-- C9 (amended): Store followed by Restore reproduces the sheet and
workspace identity and the three column indices exactly, and reproduces
the loaded rows and both pending queues row-for-row up to `rowRT`: each
cell's ColName (tagged `-`, never serialized) is reset to empty and an
integer-typed cell value is restored as a float; in particular the queue
lengths are preserved, so rows stored while queued are restored still
queued, and an aggregate whose cells all have empty ColName and no
integer-typed value round-trips exactly. -/
theorem C9_amended_roundTrip (x : SheetInfo) :
    SheetInfo.Restore (SheetInfo.Store x) =
      { x with rows := x.rows.map rowRT, newRows := x.newRows.map rowRT,
               updateRows := x.updateRows.map rowRT } := by
  rcases x with ⟨sid, sname, wid, wname, byId, byName, byIndex, rows, newRows, updateRows⟩
  simp only [SheetInfo.Store, SheetInfo.Restore, getInt, getStr, fieldGet,
    List.find?, SheetInfo.mk.injEq]
  exact ⟨rfl, rfl, rfl, rfl, intColMap_roundTrip byId, strColMap_roundTrip byName,
    intColMap_roundTrip byIndex, rowList_roundTrip rows, rowList_roundTrip newRows,
    rowList_roundTrip updateRows⟩

end Smartsheet
